import Mathlib

/-!
Verification development for the status-page tracker in
`src/status_tracker.py`.

The Python program is shallowly embedded below.  JSON objects are
translated to Lean structures whose `Option` fields model presence or
absence of the corresponding key (a JSON `null` value, which Python
`dict.get` also maps to `None`, is collapsed into absence).  Python
`dict` truthiness (a dict is truthy iff it is nonempty) is recorded by
an explicit `extraKeys` flag, since it depends on keys the program
never reads.  Network interactions are modelled by an explicit event
type: an exception raised by the HTTP library, or a response with a
status code, an optional ETag header and a parsed body.  Console
output of the change-detection code is modelled as a returned list of
events.
-/

/-- One entry of the `incident_updates` array of an incident; `body` is
its optional text field (lines 156-160 of the source). -/
structure IncidentUpdate where
  body : Option String
deriving DecidableEq

/-- A component reference inside an incident: either a bare id string or
an embedded object carrying optional `id` and `name` fields.  The code
distinguishes the two shapes with `isinstance(comp, dict)` (line 151). -/
inductive CompRef where
  | bare (s : String)
  | obj (id : Option String) (name : Option String)
deriving DecidableEq

/-- The id the source extracts from a component reference:
`comp.get('id') if isinstance(comp, dict) else comp` (line 151). -/
def CompRef.compId : CompRef → Option String
  | .bare s => some s
  | .obj i _ => i

/-- An incident as parsed from the incidents JSON document.  Fields the
code reads with `incident.get(...)` are `Option`s; the two array fields
default to `[]` when absent, exactly as `incident.get('components', [])`
and `incident.get('incident_updates', [])` do. -/
structure Incident where
  id : Option String
  status : Option String
  updated_at : Option String
  components : List CompRef
  incident_updates : List IncidentUpdate
deriving DecidableEq

/-- A component as parsed from the components JSON document. -/
structure Component where
  id : Option String
  name : Option String
deriving DecidableEq

/-- The parsed incidents JSON document.  `incidents` is the optional
`"incidents"` key; `extraKeys` records whether the object carries any
other key, so Python dict truthiness is representable. -/
structure IncidentsData where
  incidents : Option (List Incident)
  extraKeys : Bool
deriving DecidableEq

/-- Python truthiness of the incidents document: a dict is truthy iff it
has at least one key. -/
def IncidentsData.truthy (d : IncidentsData) : Bool :=
  d.incidents.isSome || d.extraKeys

/-- The parsed components JSON document, modelled like `IncidentsData`. -/
structure ComponentsData where
  components : Option (List Component)
  extraKeys : Bool
deriving DecidableEq

/-- Python truthiness of the components document. -/
def ComponentsData.truthy (d : ComponentsData) : Bool :=
  d.components.isSome || d.extraKeys

/-- The per-incident record the tracker stores in
`self.incident_states[incident_id]` (lines 232-235): both keys are
always present. -/
structure IncidentRecord where
  status : String
  last_updated : String
deriving DecidableEq

/-- The mutable state of a `StatusTracker` instance relevant to change
detection (lines 39-43): the two ETags, the set of seen incident ids and
the incident-state mapping (an association list keyed by incident id). -/
structure TrackerState where
  etag_incidents : Option String
  etag_components : Option String
  seen_incident_ids : Finset String
  incident_states : List (String × IncidentRecord)
deriving DecidableEq

/-- The state built by `__init__`: no ETags, empty set, empty mapping. -/
def initial_state : TrackerState := ⟨none, none, ∅, []⟩

/-- A notification printed by the detector: `_print_incident_update` for
a new incident, `_print_status_change` (with the old status) for a
status transition. -/
inductive ChangeEvent where
  | NewIncident (incident : Incident)
  | StatusChanged (incident : Incident) (old_status : String)
deriving DecidableEq

/-- One observable network interaction.  `exn` models a raised
`requests.exceptions.RequestException` (timeout, connection error, DNS
failure, and the JSON decode failure of a malformed body, which the
installed HTTP library raises as a `RequestException` subclass);
`resp` models a completed HTTP response with its status code, optional
`ETag` header and parsed body. -/
inductive HttpEvent (α : Type) where
  | exn (reason : String)
  | resp (status : Nat) (etagHeader : Option String) (body : α)
deriving DecidableEq

/-- Python `str.strip()` with the double-quote character, as applied to
the ETag header on line 72. -/
def strip_quotes (s : String) : String :=
  String.mk (((s.toList.dropWhile (· = '"')).reverse.dropWhile (· = '"')).reverse)

/-- Embeds `_make_conditional_request` (lines 48-81).  Returns the
`(response_data, new_etag, status_code)` triple; every branch of the
source, including the exception handler, is a plain return. -/
def make_conditional_request {α : Type} (etag : Option String) (ev : HttpEvent α) :
    Option α × Option String × Option Nat :=
  match ev with
  | .exn _ => (none, etag, none)
  | .resp status h body =>
    if status = 304 then (none, etag, some 304)
    else if status = 200 then (some body, some (strip_quotes (h.getD "")), some 200)
    else (none, etag, some status)

/-- Embeds `_fetch_incidents` and `_fetch_components` (lines 83-117),
which are identical up to the URL and the etag field they use.  Returns
the fetched data together with the new value of that etag field: the
etag is replaced only on a 200 response carrying a nonempty ETag. -/
def fetch_resource {α : Type} (etag : Option String) (ev : HttpEvent α) :
    Option α × Option String :=
  let r := make_conditional_request etag ev
  if r.2.2 = some 200 then
    (r.1,
      match r.2.1 with
      | some s => if s = "" then etag else some s
      | none => etag)
  else (none, etag)

/-- Python dict assignment `states[id] = record` on an association
list: replace the binding if the key is present, append it otherwise. -/
def upsert (m : List (String × IncidentRecord)) (k : String) (v : IncidentRecord) :
    List (String × IncidentRecord) :=
  match m with
  | [] => [(k, v)]
  | (k2, v2) :: rest => if k2 = k then (k, v) :: rest else (k2, v2) :: upsert rest k v

/-- Embeds one iteration of the loop body of `_process_incidents`
(lines 222-244): skip entries with a falsy id; a never-seen id is added
to both containers and yields a `NewIncident` notification; a seen id
with a record yields a `StatusChanged` notification exactly when the
stored status is truthy and differs from the current status, in which
case both record fields are overwritten. -/
def process_incident (st : TrackerState) (inc : Incident) :
    TrackerState × List ChangeEvent :=
  match inc.id with
  | none => (st, [])
  | some iid =>
    if iid = "" then (st, [])
    else
      let current_status := inc.status.getD "unknown"
      if iid ∉ st.seen_incident_ids then
        ({ st with
             seen_incident_ids := insert iid st.seen_incident_ids,
             incident_states :=
               upsert st.incident_states iid
                 ⟨current_status, inc.updated_at.getD ""⟩ },
         [ChangeEvent.NewIncident inc])
      else
        match st.incident_states.lookup iid with
        | some r =>
          if r.status ≠ "" ∧ r.status ≠ current_status then
            ({ st with
                 incident_states :=
                   upsert st.incident_states iid
                     ⟨current_status, inc.updated_at.getD ""⟩ },
             [ChangeEvent.StatusChanged inc r.status])
          else (st, [])
        | none => (st, [])

/-- The loop of `_process_incidents` over the fetched incident list:
events are emitted in list order. -/
def process_incident_list (st : TrackerState) :
    List Incident → TrackerState × List ChangeEvent
  | [] => (st, [])
  | inc :: rest =>
    let p := process_incident st inc
    let q := process_incident_list p.1 rest
    (q.1, p.2 ++ q.2)

/-- Embeds `_process_incidents` (lines 209-244) including its guard
`if not incidents_data or 'incidents' not in incidents_data`. -/
def process_incidents (st : TrackerState) (d : Option IncidentsData) :
    TrackerState × List ChangeEvent :=
  match d with
  | none => (st, [])
  | some dd =>
    if dd.truthy then
      match dd.incidents with
      | none => (st, [])
      | some incs => process_incident_list st incs
    else (st, [])

/-- Embeds one iteration of the bootstrap seeding loop in `start`
(lines 272-279): ids with a truthy value are added to the seen set and
given a state record; nothing is printed. -/
def seed_incident (st : TrackerState) (inc : Incident) : TrackerState :=
  match inc.id with
  | none => st
  | some iid =>
    if iid = "" then st
    else
      { st with
          seen_incident_ids := insert iid st.seen_incident_ids,
          incident_states :=
            upsert st.incident_states iid
              ⟨inc.status.getD "unknown", inc.updated_at.getD ""⟩ }

/-- Embeds the bootstrap seeding in `start` (lines 269-279) with its
two guards `if incidents_data` and `if 'incidents' in incidents_data`. -/
def seed_store (st : TrackerState) (d : Option IncidentsData) : TrackerState :=
  match d with
  | none => st
  | some dd =>
    if dd.truthy then
      match dd.incidents with
      | none => st
      | some incs => incs.foldl seed_incident st
    else st

/-- The whole bootstrap phase of `start` (lines 264-282): one incidents
fetch and one components fetch from the fresh state, then seeding.  The
seeding loop contains no notification call, so its event trace is the
empty list. -/
def bootstrap_run (incEv : HttpEvent IncidentsData)
    (compEv : HttpEvent ComponentsData) : TrackerState × List ChangeEvent :=
  let fi := fetch_resource initial_state.etag_incidents incEv
  let st1 : TrackerState := { initial_state with etag_incidents := fi.2 }
  let fc := fetch_resource st1.etag_components compEv
  let st2 : TrackerState := { st1 with etag_components := fc.2 }
  (seed_store st2 fi.1, [])

/-- Embeds one iteration of the monitoring loop in `start`
(lines 294-306): a conditional incidents fetch; only when it returns
truthy data is the components resource fetched and the incident data
processed.  The returned Bool records whether the components fetch was
issued. -/
def poll_cycle (st : TrackerState) (incEv : HttpEvent IncidentsData)
    (compEv : HttpEvent ComponentsData) :
    TrackerState × List ChangeEvent × Bool :=
  let fi := fetch_resource st.etag_incidents incEv
  let st1 : TrackerState := { st with etag_incidents := fi.2 }
  match fi.1 with
  | some d =>
    if d.truthy then
      let fc := fetch_resource st1.etag_components compEv
      let st2 : TrackerState := { st1 with etag_components := fc.2 }
      let pr := process_incidents st2 (some d)
      (pr.1, pr.2, true)
    else (st1, [], false)
  | none => (st1, [], false)

/-- Embeds `_get_component_name` (lines 119-127): linear scan of the
components array for a matching id, falling back to the given id. -/
def get_component_name (component_id : Option String) (cd : ComponentsData) :
    Option String :=
  match cd.components with
  | none => component_id
  | some comps =>
    match comps.find? (fun c => c.id == component_id) with
    | some c =>
      match c.name with
      | some n => some n
      | none => component_id
    | none => component_id

/-- Embeds line 151-152: the per-component name resolution, including
the truthiness test `if components_data else comp_id`. -/
def resolve_component_name (cd : Option ComponentsData) (comp : CompRef) :
    Option String :=
  match cd with
  | none => comp.compId
  | some d => if d.truthy then get_component_name comp.compId d else comp.compId

/-- Collects a list of optional strings into an optional list: `none`
when any entry is `none`.  Models the fact that Python
`', '.join(component_names)` raises a TypeError when some resolved
name is `None`. -/
def all_some : List (Option String) → Option (List String)
  | [] => some []
  | none :: _ => none
  | some s :: rest => (all_some rest).map (fun l => s :: l)

/-- The record printed by `_print_incident_update` and
`_print_status_change`: a display timestamp, a product string and a
status message. -/
structure DisplayRecord where
  timestamp : String
  product_str : String
  status_message : String
deriving DecidableEq

/-- Embeds `_print_incident_update` (lines 137-174); the identical body
of `_print_status_change` (lines 176-207) ignores its `old_status`
argument and is the same projection.  `now` stands for the formatted
current clock time used when the incident carries no `updated_at`;
`fmtTs` stands for `_format_timestamp`, the timestamp pretty-printer
(declared out of scope by the specification).  The result is `none`
exactly when the comma join would raise on a `None` name. -/
def print_incident_update (now : String) (fmtTs : String → String)
    (inc : Incident) (cd : Option ComponentsData) : Option DisplayRecord :=
  let updated_at := inc.updated_at.getD ""
  match all_some (inc.components.map (resolve_component_name cd)) with
  | none => none
  | some component_names =>
    let latest_message :=
      match inc.incident_updates with
      | [] => "No status message available"
      | u :: _ => u.body.getD "No status message available"
    let timestamp := if updated_at = "" then now else fmtTs updated_at
    let product_str :=
      if component_names = [] then "OpenAI Services"
      else String.intercalate ", " component_names
    some ⟨timestamp, product_str, latest_message⟩

/-- Embeds the interval handling of `main` (lines 326-337).  The
argument is `none` when no command-line argument is given, `some none`
when `int(...)` raises ValueError, and `some (some n)` when it parses
to `n`. -/
def resolve_poll_interval : Option (Option Int) → Int
  | none => 60
  | some none => 60
  | some (some n) => if n < 10 then 10 else n

/-- Number of `NewIncident` events in a trace whose incident has the
given id. -/
def count_new_for (iid : String) (evs : List ChangeEvent) : Nat :=
  evs.countP (fun e =>
    match e with
    | ChangeEvent.NewIncident inc => inc.id == some iid
    | ChangeEvent.StatusChanged _ _ => false)

/-- The coupling invariant between the seen-id set and the state map:
the seen set equals the key set of the incident-state mapping. -/
def storeInv (st : TrackerState) : Prop :=
  st.seen_incident_ids = (st.incident_states.map Prod.fst).toFinset

/-! Association-list lemmas about `upsert` and `List.lookup`. -/

/-- Lookup after an upsert: the updated key maps to the new value and
every other key is untouched. -/
theorem lookup_upsert (m : List (String × IncidentRecord)) (k : String)
    (v : IncidentRecord) (q : String) :
    (upsert m k v).lookup q = if q = k then some v else m.lookup q := by
  induction m with
  | nil =>
    by_cases h : q = k
    · subst h; simp [upsert, List.lookup]
    · simp [upsert, List.lookup, h, beq_eq_false_iff_ne.mpr h]
  | cons p rest ih =>
    obtain ⟨k2, v2⟩ := p
    by_cases h2 : k2 = k
    · subst h2
      by_cases h : q = k2
      · subst h; simp [upsert, List.lookup]
      · simp [upsert, List.lookup, h, beq_eq_false_iff_ne.mpr h]
    · by_cases h : q = k2
      · subst h
        have hqk : ¬q = k := h2
        simp [upsert, List.lookup, h2, hqk]
      · simp [upsert, List.lookup, h2, beq_eq_false_iff_ne.mpr h, ih]

/-- The key set after an upsert is the old key set plus the key. -/
theorem upsert_map_fst_toFinset (m : List (String × IncidentRecord))
    (k : String) (v : IncidentRecord) :
    ((upsert m k v).map Prod.fst).toFinset =
      insert k ((m.map Prod.fst).toFinset) := by
  induction m with
  | nil => simp [upsert]
  | cons p rest ih =>
    obtain ⟨k2, v2⟩ := p
    by_cases h2 : k2 = k
    · subst h2
      simp [upsert]
    · simp [upsert, h2, ih, Finset.Insert.comm]

/-- A lookup succeeds exactly when the key occurs among the keys. -/
theorem lookup_isSome_iff (m : List (String × IncidentRecord)) (k : String) :
    (m.lookup k).isSome ↔ k ∈ m.map Prod.fst := by
  induction m with
  | nil => simp [List.lookup]
  | cons p rest ih =>
    obtain ⟨k2, v2⟩ := p
    by_cases h : k = k2
    · subst h
      simp [List.lookup]
    · simp [List.lookup, beq_eq_false_iff_ne.mpr h, ih, h]

/-! Branch characterisations of `process_incident`. -/

/-- An entry without an id is skipped. -/
theorem process_incident_id_none (st : TrackerState) (inc : Incident)
    (h : inc.id = none) : process_incident st inc = (st, []) := by
  simp [process_incident, h]

/-- An entry with an empty (falsy) id is skipped. -/
theorem process_incident_id_empty (st : TrackerState) (inc : Incident)
    (h : inc.id = some "") : process_incident st inc = (st, []) := by
  simp [process_incident, h]

/-- The new-incident branch (lines 230-236). -/
theorem process_incident_new (st : TrackerState) (inc : Incident) (iid : String)
    (hid : inc.id = some iid) (hne : iid ≠ "")
    (hmem : iid ∉ st.seen_incident_ids) :
    process_incident st inc =
      ({ st with
           seen_incident_ids := insert iid st.seen_incident_ids,
           incident_states :=
             upsert st.incident_states iid
               ⟨inc.status.getD "unknown", inc.updated_at.getD ""⟩ },
       [ChangeEvent.NewIncident inc]) := by
  simp [process_incident, hid, hne, hmem]

/-- The status-changed branch (lines 239-244). -/
theorem process_incident_changed (st : TrackerState) (inc : Incident)
    (iid : String) (r : IncidentRecord)
    (hid : inc.id = some iid) (hne : iid ≠ "")
    (hmem : iid ∈ st.seen_incident_ids)
    (hr : st.incident_states.lookup iid = some r)
    (hc : r.status ≠ "" ∧ r.status ≠ inc.status.getD "unknown") :
    process_incident st inc =
      ({ st with
           incident_states :=
             upsert st.incident_states iid
               ⟨inc.status.getD "unknown", inc.updated_at.getD ""⟩ },
       [ChangeEvent.StatusChanged inc r.status]) := by
  simp [process_incident, hid, hne, hmem, hr, hc.1, hc.2]

/-- The quiet branch: a seen id with a record whose stored status is
falsy or equal to the current status changes nothing. -/
theorem process_incident_unchanged (st : TrackerState) (inc : Incident)
    (iid : String) (r : IncidentRecord)
    (hid : inc.id = some iid) (hne : iid ≠ "")
    (hmem : iid ∈ st.seen_incident_ids)
    (hr : st.incident_states.lookup iid = some r)
    (hc : ¬(r.status ≠ "" ∧ r.status ≠ inc.status.getD "unknown")) :
    process_incident st inc = (st, []) := by
  simp only [process_incident, hid, hne]
  simp [hmem, hr, hc]

/-- A seen id without a record changes nothing. -/
theorem process_incident_norecord (st : TrackerState) (inc : Incident)
    (iid : String)
    (hid : inc.id = some iid) (hne : iid ≠ "")
    (hmem : iid ∈ st.seen_incident_ids)
    (hr : st.incident_states.lookup iid = none) :
    process_incident st inc = (st, []) := by
  simp [process_incident, hid, hne, hmem, hr]

/-- Exhaustive case analysis of `process_incident`: either nothing
happens, or the new-incident branch fires, or the status-changed branch
fires. -/
theorem process_incident_cases (st : TrackerState) (inc : Incident) :
    (process_incident st inc = (st, [])) ∨
    (∃ j, inc.id = some j ∧ j ≠ "" ∧ j ∉ st.seen_incident_ids ∧
       process_incident st inc =
         ({ st with
              seen_incident_ids := insert j st.seen_incident_ids,
              incident_states :=
                upsert st.incident_states j
                  ⟨inc.status.getD "unknown", inc.updated_at.getD ""⟩ },
          [ChangeEvent.NewIncident inc])) ∨
    (∃ j r, inc.id = some j ∧ j ≠ "" ∧ j ∈ st.seen_incident_ids ∧
       st.incident_states.lookup j = some r ∧
       process_incident st inc =
         ({ st with
              incident_states :=
                upsert st.incident_states j
                  ⟨inc.status.getD "unknown", inc.updated_at.getD ""⟩ },
          [ChangeEvent.StatusChanged inc r.status])) := by
  rcases hid : inc.id with _ | j
  · exact Or.inl (process_incident_id_none st inc hid)
  · by_cases hj : j = ""
    · subst hj
      exact Or.inl (process_incident_id_empty st inc hid)
    · by_cases hm : j ∈ st.seen_incident_ids
      · rcases hl : st.incident_states.lookup j with _ | r
        · exact Or.inl (process_incident_norecord st inc j hid hj hm hl)
        · by_cases hc : r.status ≠ "" ∧ r.status ≠ inc.status.getD "unknown"
          · exact Or.inr (Or.inr ⟨j, r, rfl, hj, hm, hl,
              process_incident_changed st inc j r hid hj hm hl hc⟩)
          · exact Or.inl (process_incident_unchanged st inc j r hid hj hm hl hc)
      · exact Or.inr (Or.inl ⟨j, rfl, hj, hm,
          process_incident_new st inc j hid hj hm⟩)

/-- The seen set only grows across one processed incident. -/
theorem mem_seen_process_incident (st : TrackerState) (inc : Incident)
    (iid : String) (h : iid ∈ st.seen_incident_ids) :
    iid ∈ (process_incident st inc).1.seen_incident_ids := by
  rcases process_incident_cases st inc with heq | ⟨j, _, _, _, heq⟩ |
    ⟨j, r, _, _, _, _, heq⟩
  · rw [heq]; exact h
  · rw [heq]; exact Finset.mem_insert_of_mem h
  · rw [heq]; exact h

/-- An id different from the processed incident id is never added to
the seen set. -/
theorem not_mem_seen_process_incident (st : TrackerState) (inc : Incident)
    (iid : String) (hnm : iid ∉ st.seen_incident_ids)
    (hne : inc.id ≠ some iid) :
    iid ∉ (process_incident st inc).1.seen_incident_ids := by
  rcases process_incident_cases st inc with heq | ⟨j, hid, _, _, heq⟩ |
    ⟨j, r, _, _, _, _, heq⟩
  · rw [heq]; exact hnm
  · rw [heq]
    intro hmem
    rcases Finset.mem_insert.mp hmem with rfl | hmem
    · exact hne hid
    · exact hnm hmem
  · rw [heq]; exact hnm

/-- A lookup that succeeds keeps succeeding across one processed
incident. -/
theorem lookup_isSome_process_incident (st : TrackerState) (inc : Incident)
    (iid : String) (h : (st.incident_states.lookup iid).isSome) :
    (((process_incident st inc).1.incident_states).lookup iid).isSome := by
  rcases process_incident_cases st inc with heq | ⟨j, _, _, _, heq⟩ |
    ⟨j, r, _, _, _, _, heq⟩
  · rw [heq]; exact h
  · rw [heq]
    by_cases hij : iid = j <;> simp [lookup_upsert, hij, h]
  · rw [heq]
    by_cases hij : iid = j <;> simp [lookup_upsert, hij, h]

/-- `count_new_for` distributes over appending traces. -/
theorem count_new_for_append (iid : String) (a b : List ChangeEvent) :
    count_new_for iid (a ++ b) = count_new_for iid a + count_new_for iid b := by
  simp [count_new_for, List.countP_append]

/-- An incident with a different id contributes no `NewIncident` event
for the given id. -/
theorem count_new_process_incident_ne (st : TrackerState) (inc : Incident)
    (iid : String) (hne : inc.id ≠ some iid) :
    count_new_for iid (process_incident st inc).2 = 0 := by
  rcases process_incident_cases st inc with heq | ⟨j, hid, _, _, heq⟩ |
    ⟨j, r, _, _, _, _, heq⟩
  · rw [heq]; rfl
  · rw [heq]
    simp [count_new_for, beq_eq_false_iff_ne.mpr hne]
  · rw [heq]
    simp [count_new_for]

/-- An id already seen contributes no `NewIncident` event in one step. -/
theorem count_new_process_incident_seen (st : TrackerState) (inc : Incident)
    (iid : String) (hm : iid ∈ st.seen_incident_ids) :
    count_new_for iid (process_incident st inc).2 = 0 := by
  rcases process_incident_cases st inc with heq | ⟨j, hid, hj, hnm, heq⟩ |
    ⟨j, r, _, _, _, _, heq⟩
  · rw [heq]; rfl
  · rw [heq]
    have hne : (inc.id == some iid) = false := by
      apply beq_eq_false_iff_ne.mpr
      intro hcontra
      rw [hid] at hcontra
      have hji : j = iid := Option.some.injEq j iid ▸ hcontra
      exact hnm (hji ▸ hm)
    simp [count_new_for, hne]
  · rw [heq]
    simp [count_new_for]

/-- The seen set only grows across a processed list. -/
theorem mem_seen_process_list (incs : List Incident) :
    ∀ (st : TrackerState) (iid : String), iid ∈ st.seen_incident_ids →
      iid ∈ (process_incident_list st incs).1.seen_incident_ids := by
  induction incs with
  | nil => intro st iid h; exact h
  | cons inc rest ih =>
    intro st iid h
    simp only [process_incident_list]
    exact ih _ _ (mem_seen_process_incident _ _ _ h)

/-- A lookup that succeeds keeps succeeding across a processed list. -/
theorem lookup_isSome_process_list (incs : List Incident) :
    ∀ (st : TrackerState) (iid : String),
      (st.incident_states.lookup iid).isSome →
      (((process_incident_list st incs).1.incident_states).lookup iid).isSome := by
  induction incs with
  | nil => intro st iid h; exact h
  | cons inc rest ih =>
    intro st iid h
    simp only [process_incident_list]
    exact ih _ _ (lookup_isSome_process_incident _ _ _ h)

/-- An id already seen at the start of a detect pass contributes no
`NewIncident` event during the whole pass. -/
theorem count_new_process_list_seen (incs : List Incident) :
    ∀ (st : TrackerState) (iid : String), iid ∈ st.seen_incident_ids →
      count_new_for iid (process_incident_list st incs).2 = 0 := by
  induction incs with
  | nil => intro st iid h; rfl
  | cons inc rest ih =>
    intro st iid h
    simp only [process_incident_list]
    rw [count_new_for_append]
    rw [count_new_process_incident_seen st inc iid h,
      ih _ _ (mem_seen_process_incident st inc iid h)]

/-- Main induction for claim C2: a valid id that is not yet seen and
occurs in the fetched list produces exactly one `NewIncident` event,
lands in the seen set, and gets a state record. -/
theorem process_list_new_aux (incs : List Incident) :
    ∀ (st : TrackerState) (iid : String), iid ≠ "" →
      iid ∉ st.seen_incident_ids →
      (∃ inc ∈ incs, inc.id = some iid) →
      count_new_for iid (process_incident_list st incs).2 = 1 ∧
      iid ∈ (process_incident_list st incs).1.seen_incident_ids ∧
      (((process_incident_list st incs).1.incident_states).lookup iid).isSome := by
  induction incs with
  | nil =>
    intro st iid _ _ hex
    simp at hex
  | cons inc rest ih =>
    intro st iid hne hnm hex
    by_cases hid : inc.id = some iid
    · have hstep := process_incident_new st inc iid hid hne hnm
      have hmem1 : iid ∈ (process_incident st inc).1.seen_incident_ids := by
        rw [hstep]; exact Finset.mem_insert_self iid _
      have hlook1 : (((process_incident st inc).1.incident_states).lookup iid).isSome := by
        rw [hstep]; simp [lookup_upsert]
      refine ⟨?_, ?_, ?_⟩
      · simp only [process_incident_list]
        rw [count_new_for_append, count_new_process_list_seen rest _ iid hmem1]
        rw [hstep]
        simp [count_new_for, hid]
      · simp only [process_incident_list]
        exact mem_seen_process_list rest _ iid hmem1
      · simp only [process_incident_list]
        exact lookup_isSome_process_list rest _ iid hlook1
    · obtain ⟨inc0, hmem0, hid0⟩ := hex
      rcases List.mem_cons.mp hmem0 with rfl | hmem0
      · exact absurd hid0 hid
      · have h1 := count_new_process_incident_ne st inc iid hid
        have h2 := not_mem_seen_process_incident st inc iid hnm hid
        have h3 := ih (process_incident st inc).1 iid hne h2 ⟨inc0, hmem0, hid0⟩
        refine ⟨?_, ?_, ?_⟩
        · simp only [process_incident_list]
          rw [count_new_for_append, h1, h3.1]
        · simp only [process_incident_list]
          exact h3.2.1
        · simp only [process_incident_list]
          exact h3.2.2

/-- C2: for every incident in a fetched collection whose id is absent
from the store at detection time, detect emits exactly one NewIncident
event, inserts a record for that id, and the store subsequently
contains that id; no NewIncident event is ever emitted for an id
already in the store. -/
theorem C2_new_incident_detection :
    (∀ (st : TrackerState) (incs : List Incident) (iid : String),
       iid ≠ "" → iid ∉ st.seen_incident_ids →
       (∃ inc ∈ incs, inc.id = some iid) →
       count_new_for iid (process_incident_list st incs).2 = 1 ∧
       iid ∈ (process_incident_list st incs).1.seen_incident_ids ∧
       (((process_incident_list st incs).1.incident_states).lookup iid).isSome) ∧
    (∀ (st : TrackerState) (incs : List Incident) (iid : String),
       iid ∈ st.seen_incident_ids →
       count_new_for iid (process_incident_list st incs).2 = 0) :=
  ⟨fun st incs iid hne hnm hex => process_list_new_aux incs st iid hne hnm hex,
   fun st incs iid h => count_new_process_list_seen incs st iid h⟩

/-- Witness for C2 at a concrete never-seen incident id. -/
theorem C2_witness :
    count_new_for "a" (process_incident_list initial_state
        [⟨some "a", some "investigating", some "t1", [], []⟩]).2 = 1 ∧
    "a" ∈ (process_incident_list initial_state
        [⟨some "a", some "investigating", some "t1", [], []⟩]).1.seen_incident_ids ∧
    (((process_incident_list initial_state
        [⟨some "a", some "investigating", some "t1", [], []⟩]).1.incident_states).lookup
        "a").isSome :=
  C2_new_incident_detection.1 initial_state
    [⟨some "a", some "investigating", some "t1", [], []⟩] "a"
    (by decide) (by decide)
    ⟨⟨some "a", some "investigating", some "t1", [], []⟩, by simp, rfl⟩

/-- C1 (amended): for an incident whose valid id is already in the
store with a record, a StatusChanged event is emitted iff the stored
status is nonempty (truthy) and differs from the newly observed status;
when emitted it is exactly one event carrying the old status, the
record is updated to the new status, and an identical re-fetch yields
no further event. -/
theorem C1_status_change_amended (st : TrackerState) (inc : Incident)
    (iid : String) (r : IncidentRecord)
    (hid : inc.id = some iid) (hne : iid ≠ "")
    (hseen : iid ∈ st.seen_incident_ids)
    (hr : st.incident_states.lookup iid = some r) :
    ((process_incident st inc).2 ≠ [] ↔
      (r.status ≠ "" ∧ r.status ≠ inc.status.getD "unknown")) ∧
    ((r.status ≠ "" ∧ r.status ≠ inc.status.getD "unknown") →
      (process_incident st inc).2 = [ChangeEvent.StatusChanged inc r.status] ∧
      ((process_incident st inc).1.incident_states).lookup iid =
        some ⟨inc.status.getD "unknown", inc.updated_at.getD ""⟩ ∧
      (process_incident (process_incident st inc).1 inc).2 = []) := by
  by_cases hc : r.status ≠ "" ∧ r.status ≠ inc.status.getD "unknown"
  · have hstep := process_incident_changed st inc iid r hid hne hseen hr hc
    have hlook : ((process_incident st inc).1.incident_states).lookup iid =
        some ⟨inc.status.getD "unknown", inc.updated_at.getD ""⟩ := by
      rw [hstep]; simp [lookup_upsert]
    have hseen2 : iid ∈ (process_incident st inc).1.seen_incident_ids := by
      rw [hstep]; exact hseen
    have hre : (process_incident (process_incident st inc).1 inc).2 = [] := by
      have hq := process_incident_unchanged (process_incident st inc).1 inc iid
        ⟨inc.status.getD "unknown", inc.updated_at.getD ""⟩ hid hne hseen2 hlook
        (fun hcc => hcc.2 rfl)
      rw [hq]
    refine ⟨⟨fun _ => hc, fun _ => ?_⟩, fun _ => ⟨by rw [hstep], hlook, hre⟩⟩
    rw [hstep]
    simp
  · have hstep := process_incident_unchanged st inc iid r hid hne hseen hr hc
    refine ⟨⟨fun hx => ?_, fun hcc => absurd hcc hc⟩, fun hcc => absurd hcc hc⟩
    rw [hstep] at hx
    exact absurd rfl hx

/-- Concrete store for the C1 counterexample, reached by bootstrapping
from one incident whose status is the empty string. -/
def C1_cex_store : TrackerState :=
  (bootstrap_run
     (HttpEvent.resp 200 none ⟨some [⟨some "a", some "", some "t0", [], []⟩], false⟩)
     (HttpEvent.exn "net down")).1

/-- Counterexample to C1 as stated: incident id "a" is in the store
with stored status "" which differs from the newly observed status
"resolved" by simple inequality, yet detect emits no event, because
the source additionally requires the stored status to be truthy
(line 241, `if old_status and old_status != current_status`). -/
theorem C1_counterexample :
    "a" ∈ C1_cex_store.seen_incident_ids ∧
    (C1_cex_store.incident_states).lookup "a" = some ⟨"", "t0"⟩ ∧
    ("" : String) ≠ "resolved" ∧
    (process_incident C1_cex_store
      ⟨some "a", some "resolved", some "t1", [], []⟩).2 = [] := by
  decide

/-- Concrete store for the C1 witness. -/
def C1_wit_store : TrackerState :=
  ⟨none, none, {"a"}, [("a", ⟨"investigating", "t0"⟩)]⟩

/-- Concrete incident for the C1 witness. -/
def C1_wit_inc : Incident := ⟨some "a", some "resolved", some "t1", [], []⟩

/-- Witness for C1 (amended) at a concrete changed incident. -/
theorem C1_witness :
    ((process_incident C1_wit_store C1_wit_inc).2 ≠ [] ↔
      ((IncidentRecord.mk "investigating" "t0").status ≠ "" ∧
       (IncidentRecord.mk "investigating" "t0").status ≠
         C1_wit_inc.status.getD "unknown")) ∧
    (((IncidentRecord.mk "investigating" "t0").status ≠ "" ∧
      (IncidentRecord.mk "investigating" "t0").status ≠
        C1_wit_inc.status.getD "unknown") →
      (process_incident C1_wit_store C1_wit_inc).2 =
        [ChangeEvent.StatusChanged C1_wit_inc
          (IncidentRecord.mk "investigating" "t0").status] ∧
      ((process_incident C1_wit_store C1_wit_inc).1.incident_states).lookup "a" =
        some ⟨C1_wit_inc.status.getD "unknown", C1_wit_inc.updated_at.getD ""⟩ ∧
      (process_incident (process_incident C1_wit_store C1_wit_inc).1
        C1_wit_inc).2 = []) :=
  C1_status_change_amended C1_wit_store C1_wit_inc "a" ⟨"investigating", "t0"⟩
    rfl (by decide) (by decide) (by decide)

/-- C4 (amended): for an incident whose valid id is in the store with a
record whose status equals the newly observed status, detect emits no
event and leaves the whole state unchanged; in particular last_updated
is not refreshed. -/
theorem C4_unchanged_amended (st : TrackerState) (inc : Incident)
    (iid : String) (r : IncidentRecord)
    (hid : inc.id = some iid) (hne : iid ≠ "")
    (hseen : iid ∈ st.seen_incident_ids)
    (hr : st.incident_states.lookup iid = some r)
    (hsame : r.status = inc.status.getD "unknown") :
    process_incident st inc = (st, []) :=
  process_incident_unchanged st inc iid r hid hne hseen hr
    (fun hc => hc.2 hsame)

/-- Concrete store for the C4 counterexample, reached by bootstrapping
from one incident with status investigating and timestamp t0. -/
def C4_cex_store : TrackerState :=
  (bootstrap_run
     (HttpEvent.resp 200 none
       ⟨some [⟨some "a", some "investigating", some "t0", [], []⟩], false⟩)
     (HttpEvent.exn "net down")).1

/-- Counterexample to C4 as stated: re-observing incident "a" with the
same status but a fresh updated_at "t1" emits no event AND leaves the
record at last_updated "t0": the source does not refresh last_updated
when the status is unchanged (the refresh on line 243 sits inside the
status-changed branch). -/
theorem C4_counterexample :
    (process_incident C4_cex_store
      ⟨some "a", some "investigating", some "t1", [], []⟩).2 = [] ∧
    ((process_incident C4_cex_store
      ⟨some "a", some "investigating", some "t1", [], []⟩).1.incident_states).lookup
        "a" = some ⟨"investigating", "t0"⟩ ∧
    ("t0" : String) ≠ "t1" := by
  decide

/-- Concrete store for the C4 witness. -/
def C4_wit_store : TrackerState :=
  ⟨none, none, {"a"}, [("a", ⟨"investigating", "t0"⟩)]⟩

/-- Witness for C4 (amended) at a concrete unchanged incident. -/
theorem C4_witness :
    process_incident C4_wit_store
      ⟨some "a", some "investigating", some "t1", [], []⟩ = (C4_wit_store, []) :=
  C4_unchanged_amended C4_wit_store
    ⟨some "a", some "investigating", some "t1", [], []⟩ "a"
    ⟨"investigating", "t0"⟩ rfl (by decide) (by decide) (by decide) (by decide)

/-- An entry without an id is skipped by the seeding loop. -/
theorem seed_incident_id_none (st : TrackerState) (inc : Incident)
    (h : inc.id = none) : seed_incident st inc = st := by
  simp [seed_incident, h]

/-- An entry with an empty (falsy) id is skipped by the seeding loop. -/
theorem seed_incident_id_empty (st : TrackerState) (inc : Incident)
    (h : inc.id = some "") : seed_incident st inc = st := by
  simp [seed_incident, h]

/-- The seeding step for a valid id. -/
theorem seed_incident_valid (st : TrackerState) (inc : Incident) (j : String)
    (h : inc.id = some j) (hj : j ≠ "") :
    seed_incident st inc =
      { st with
          seen_incident_ids := insert j st.seen_incident_ids,
          incident_states :=
            upsert st.incident_states j
              ⟨inc.status.getD "unknown", inc.updated_at.getD ""⟩ } := by
  simp [seed_incident, h, hj]

/-- Membership in the seen set after one seeding step. -/
theorem seed_incident_mem (st : TrackerState) (inc : Incident) (iid : String) :
    iid ∈ (seed_incident st inc).seen_incident_ids ↔
      iid ∈ st.seen_incident_ids ∨ (inc.id = some iid ∧ iid ≠ "") := by
  rcases hid : inc.id with _ | j
  · rw [seed_incident_id_none st inc hid]
    constructor
    · exact Or.inl
    · rintro (h | ⟨heq, _⟩)
      · exact h
      · cases heq
  · by_cases hj : j = ""
    · subst hj
      rw [seed_incident_id_empty st inc hid]
      constructor
      · exact Or.inl
      · rintro (h | ⟨heq, hne⟩)
        · exact h
        · exact absurd (Option.some.inj heq).symm hne
    · rw [seed_incident_valid st inc j hid hj]
      constructor
      · intro h
        rcases Finset.mem_insert.mp h with rfl | h
        · exact Or.inr ⟨rfl, hj⟩
        · exact Or.inl h
      · rintro (h | ⟨heq, _⟩)
        · exact Finset.mem_insert_of_mem h
        · rw [Option.some.inj heq]
          exact Finset.mem_insert_self iid _

/-- Membership in the seen set after the whole seeding fold. -/
theorem seed_fold_mem (incs : List Incident) :
    ∀ (st : TrackerState) (iid : String),
      iid ∈ (incs.foldl seed_incident st).seen_incident_ids ↔
        iid ∈ st.seen_incident_ids ∨
          ((∃ inc ∈ incs, inc.id = some iid) ∧ iid ≠ "") := by
  induction incs with
  | nil =>
    intro st iid
    simp
  | cons inc rest ih =>
    intro st iid
    rw [List.foldl_cons, ih, seed_incident_mem]
    constructor
    · rintro ((h | ⟨hidc, hne⟩) | ⟨⟨inc0, hm, hid0⟩, hne⟩)
      · exact Or.inl h
      · exact Or.inr ⟨⟨inc, List.mem_cons_self inc rest, hidc⟩, hne⟩
      · exact Or.inr ⟨⟨inc0, List.mem_cons_of_mem inc hm, hid0⟩, hne⟩
    · rintro (h | ⟨⟨inc0, hm, hid0⟩, hne⟩)
      · exact Or.inl (Or.inl h)
      · rcases List.mem_cons.mp hm with rfl | hm
        · exact Or.inl (Or.inr ⟨hid0, hne⟩)
        · exact Or.inr ⟨⟨inc0, hm, hid0⟩, hne⟩

/-- A seeding step for a different id does not touch a lookup. -/
theorem seed_incident_lookup_ne (st : TrackerState) (inc : Incident)
    (iid : String) (h : inc.id ≠ some iid) :
    ((seed_incident st inc).incident_states).lookup iid =
      st.incident_states.lookup iid := by
  rcases hid : inc.id with _ | j
  · rw [seed_incident_id_none st inc hid]
  · by_cases hj : j = ""
    · subst hj
      rw [seed_incident_id_empty st inc hid]
    · rw [seed_incident_valid st inc j hid hj]
      have hij : iid ≠ j := fun he => h (by rw [hid, he])
      simp [lookup_upsert, hij]

/-- A seeding fold over incidents with different ids does not touch a
lookup. -/
theorem seed_fold_lookup_ne (incs : List Incident) :
    ∀ (st : TrackerState) (iid : String),
      (∀ inc ∈ incs, inc.id ≠ some iid) →
      ((incs.foldl seed_incident st).incident_states).lookup iid =
        st.incident_states.lookup iid := by
  induction incs with
  | nil => intro st iid _; rfl
  | cons inc rest ih =>
    intro st iid h
    rw [List.foldl_cons,
      ih _ _ (fun i hi => h i (List.mem_cons_of_mem inc hi)),
      seed_incident_lookup_ne st inc iid (h inc (List.mem_cons_self inc rest))]

/-- A seeding step with a valid id installs the record of that
incident. -/
theorem seed_incident_lookup_self (st : TrackerState) (inc : Incident)
    (j : String) (hid : inc.id = some j) (hj : j ≠ "") :
    ((seed_incident st inc).incident_states).lookup j =
      some ⟨inc.status.getD "unknown", inc.updated_at.getD ""⟩ := by
  rw [seed_incident_valid st inc j hid hj]
  simp [lookup_upsert]

/-- After a seeding fold with pairwise distinct ids, each incident id
is mapped to exactly that incident's record. -/
theorem seed_fold_lookup (incs : List Incident) :
    ∀ (st : TrackerState), (incs.map Incident.id).Nodup →
      ∀ inc ∈ incs, ∀ iid, inc.id = some iid → iid ≠ "" →
      ((incs.foldl seed_incident st).incident_states).lookup iid =
        some ⟨inc.status.getD "unknown", inc.updated_at.getD ""⟩ := by
  induction incs with
  | nil =>
    intro st _ inc hm
    simp at hm
  | cons a rest ih =>
    intro st hnd inc hm iid hid hne
    rw [List.map_cons, List.nodup_cons] at hnd
    rcases List.mem_cons.mp hm with rfl | hm
    · rw [List.foldl_cons]
      have hnotin : ∀ i ∈ rest, i.id ≠ some iid := by
        intro i hi hcontra
        have hin : some iid ∈ rest.map Incident.id :=
          List.mem_map.mpr ⟨i, hi, hcontra⟩
        have hna := hnd.1
        rw [hid] at hna
        exact hna hin
      rw [seed_fold_lookup_ne rest _ iid hnotin]
      exact seed_incident_lookup_self st inc iid hid hne
    · rw [List.foldl_cons]
      exact ih _ hnd.2 inc hm iid hid hne

/-- C3: the initial bootstrap fetch of N incidents seeds the store with
exactly the ids of those incidents, recording each one's status and
updated_at, while emitting zero events (the seeding loop prints
nothing), under the documented data-model assumptions that every
incident carries a nonempty id and ids are unique. -/
theorem C3_bootstrap_seeding (hdr : Option String) (oth : Bool)
    (incs : List Incident) (compEv : HttpEvent ComponentsData)
    (hids : ∀ inc ∈ incs, ∃ s, inc.id = some s ∧ s ≠ "")
    (hnodup : (incs.map Incident.id).Nodup) :
    (bootstrap_run (HttpEvent.resp 200 hdr ⟨some incs, oth⟩) compEv).2 = [] ∧
    (∀ iid,
      iid ∈ (bootstrap_run (HttpEvent.resp 200 hdr ⟨some incs, oth⟩)
          compEv).1.seen_incident_ids ↔
        ∃ inc ∈ incs, inc.id = some iid) ∧
    (∀ inc ∈ incs, ∀ iid, inc.id = some iid →
      ((bootstrap_run (HttpEvent.resp 200 hdr ⟨some incs, oth⟩)
          compEv).1.incident_states).lookup iid =
        some ⟨inc.status.getD "unknown", inc.updated_at.getD ""⟩) := by
  have h1 : (bootstrap_run (HttpEvent.resp 200 hdr ⟨some incs, oth⟩) compEv).1 =
      incs.foldl seed_incident
        (TrackerState.mk
          (fetch_resource (none : Option String)
            (HttpEvent.resp 200 hdr (⟨some incs, oth⟩ : IncidentsData))).2
          (fetch_resource (none : Option String) compEv).2 ∅ []) := rfl
  have h2 : (bootstrap_run (HttpEvent.resp 200 hdr ⟨some incs, oth⟩) compEv).2 =
      [] := rfl
  refine ⟨h2, ?_, ?_⟩
  · intro iid
    rw [h1, seed_fold_mem]
    constructor
    · rintro (h | ⟨hex, _⟩)
      · exact absurd h (Finset.not_mem_empty iid)
      · exact hex
    · intro hex
      obtain ⟨inc, hm, hid⟩ := hex
      obtain ⟨s, hs, hsne⟩ := hids inc hm
      have hise : iid = s := by
        rw [hid] at hs
        exact Option.some.inj hs
      refine Or.inr ⟨⟨inc, hm, hid⟩, ?_⟩
      rw [hise]
      exact hsne
  · intro inc hm iid hid
    obtain ⟨s, hs, hsne⟩ := hids inc hm
    have hise : iid = s := by
      rw [hid] at hs
      exact Option.some.inj hs
    have hne : iid ≠ "" := by
      rw [hise]
      exact hsne
    rw [h1]
    exact seed_fold_lookup incs _ hnodup inc hm iid hid hne

/-- Witness for C3 at a concrete one-incident bootstrap fetch. -/
theorem C3_witness :
    ((bootstrap_run (HttpEvent.resp 200 none
        ⟨some [⟨some "a", some "investigating", some "t0", [], []⟩], false⟩)
        (HttpEvent.exn "x")).1.incident_states).lookup "a" =
      some ⟨"investigating", "t0"⟩ ∧
    (bootstrap_run (HttpEvent.resp 200 none
        ⟨some [⟨some "a", some "investigating", some "t0", [], []⟩], false⟩)
        (HttpEvent.exn "x")).2 = [] := by
  have h := C3_bootstrap_seeding none false
    [⟨some "a", some "investigating", some "t0", [], []⟩] (HttpEvent.exn "x")
    (by
      intro i hi
      rw [List.mem_singleton] at hi
      subst hi
      exact ⟨"a", rfl, by decide⟩)
    (by simp)
  exact ⟨h.2.2 ⟨some "a", some "investigating", some "t0", [], []⟩
      (List.mem_singleton.mpr rfl) "a" rfl, h.1⟩

/-- One seeding step preserves the seen/states coupling. -/
theorem storeInv_seed_incident (st : TrackerState) (inc : Incident)
    (h : storeInv st) : storeInv (seed_incident st inc) := by
  rcases hid : inc.id with _ | j
  · rw [seed_incident_id_none st inc hid]; exact h
  · by_cases hj : j = ""
    · subst hj
      rw [seed_incident_id_empty st inc hid]; exact h
    · rw [seed_incident_valid st inc j hid hj]
      unfold storeInv at h ⊢
      dsimp only
      rw [upsert_map_fst_toFinset, h]

/-- The seeding fold preserves the seen/states coupling. -/
theorem storeInv_seed_fold (incs : List Incident) :
    ∀ st : TrackerState, storeInv st →
      storeInv (incs.foldl seed_incident st) := by
  induction incs with
  | nil => intro st h; exact h
  | cons inc rest ih =>
    intro st h
    rw [List.foldl_cons]
    exact ih _ (storeInv_seed_incident st inc h)

/-- `seed_store` preserves the seen/states coupling. -/
theorem storeInv_seed_store (st : TrackerState) (d : Option IncidentsData)
    (h : storeInv st) : storeInv (seed_store st d) := by
  cases d with
  | none => exact h
  | some dd =>
    unfold seed_store
    cases hb : dd.truthy
    · simpa [hb] using h
    · rcases hi : dd.incidents with _ | incs
      · simpa [hb, hi] using h
      · simp only [hb, hi, if_true]
        exact storeInv_seed_fold incs st h

/-- One detect step preserves the seen/states coupling. -/
theorem storeInv_process_incident (st : TrackerState) (inc : Incident)
    (h : storeInv st) : storeInv (process_incident st inc).1 := by
  rcases process_incident_cases st inc with heq | ⟨j, hid, hj, hnm, heq⟩ |
    ⟨j, r, hid, hj, hm, hl, heq⟩
  · rw [heq]; exact h
  · rw [heq]
    unfold storeInv at h ⊢
    dsimp only
    rw [upsert_map_fst_toFinset, h]
  · rw [heq]
    unfold storeInv at h ⊢
    dsimp only
    rw [upsert_map_fst_toFinset, h]
    have hjmem : j ∈ st.incident_states.map Prod.fst :=
      (lookup_isSome_iff _ _).mp (by rw [hl]; rfl)
    exact (Finset.insert_eq_self.mpr (List.mem_toFinset.mpr hjmem)).symm

/-- A whole detect pass preserves the seen/states coupling. -/
theorem storeInv_process_list (incs : List Incident) :
    ∀ st : TrackerState, storeInv st →
      storeInv (process_incident_list st incs).1 := by
  induction incs with
  | nil => intro st h; exact h
  | cons inc rest ih =>
    intro st h
    simp only [process_incident_list]
    exact ih _ (storeInv_process_incident st inc h)

/-- C10: the set of seen incident ids always equals the key set of the
incident-state map: it holds initially, is preserved by bootstrap
seeding and by every detect pass, and under it membership in the seen
set coincides with a state record existing. -/
theorem C10_seen_states_coupling :
    storeInv initial_state ∧
    (∀ (st : TrackerState) (d : Option IncidentsData),
       storeInv st → storeInv (seed_store st d)) ∧
    (∀ (st : TrackerState) (incs : List Incident),
       storeInv st → storeInv (process_incident_list st incs).1) ∧
    (∀ st : TrackerState, storeInv st →
       ∀ iid, iid ∈ st.seen_incident_ids ↔
         (st.incident_states.lookup iid).isSome) := by
  refine ⟨?_, ?_, ?_, ?_⟩
  · simp [storeInv, initial_state]
  · exact fun st d h => storeInv_seed_store st d h
  · exact fun st incs h => storeInv_process_list incs st h
  · intro st h iid
    unfold storeInv at h
    rw [h, List.mem_toFinset]
    exact (lookup_isSome_iff _ _).symm

/-- Witness for C10: the coupling after a concrete detect pass from the
initial state. -/
theorem C10_witness :
    storeInv (process_incident_list initial_state
      [⟨some "a", some "investigating", some "t0", [], []⟩]).1 :=
  C10_seen_states_coupling.2.2.1 initial_state
    [⟨some "a", some "investigating", some "t0", [], []⟩]
    (by simp [storeInv, initial_state])

/-- C6: for every validator and every resource (the two URLs only pick
the etag field fed to `fetch_resource`), a network failure (timeout,
connection error, malformed body: any raised RequestException) is
returned as the Failed outcome triple, the stored validator is left
unchanged, and the data is absent, so the enclosing poll cycle treats
the resource as unchanged; no exception escapes (the embedding is a
total function on failure events). -/
theorem C6_fetch_failure_total :
    (∀ (α : Type) (etag : Option String) (reason : String),
       make_conditional_request etag (HttpEvent.exn reason : HttpEvent α) =
         (none, etag, none) ∧
       fetch_resource etag (HttpEvent.exn reason : HttpEvent α) = (none, etag)) ∧
    (∀ (st : TrackerState) (reason : String) (compEv : HttpEvent ComponentsData),
       poll_cycle st (HttpEvent.exn reason) compEv = (st, [], false)) := by
  constructor
  · intro α etag reason
    exact ⟨rfl, rfl⟩
  · intro st reason compEv
    rfl

/-- C7: the components resource is fetched in a cycle iff the incidents
fetch returned (changed) data, given that any 200 body conforms to the
documented shape and carries the incidents key; and a not-modified
incidents cycle emits zero events, leaves the whole tracker state
(store and both validators) unchanged, and issues no component fetch. -/
theorem C7_conditional_cycle :
    (∀ (st : TrackerState) (hdr : Option String) (body : IncidentsData)
       (compEv : HttpEvent ComponentsData),
       poll_cycle st (HttpEvent.resp 304 hdr body) compEv = (st, [], false)) ∧
    (∀ (st : TrackerState) (incEv : HttpEvent IncidentsData)
       (compEv : HttpEvent ComponentsData),
       (∀ (s : Nat) (hdr : Option String) (b : IncidentsData),
          incEv = HttpEvent.resp s hdr b → b.incidents.isSome) →
       ((poll_cycle st incEv compEv).2.2 = true ↔
         (fetch_resource st.etag_incidents incEv).1.isSome)) := by
  constructor
  · intro st hdr body compEv
    rfl
  · intro st incEv compEv hshape
    cases incEv with
    | exn reason =>
      simp [poll_cycle, fetch_resource, make_conditional_request]
    | resp s hdr b =>
      have hb : b.incidents.isSome := hshape s hdr b rfl
      by_cases h304 : s = 304
      · subst h304
        simp [poll_cycle, fetch_resource, make_conditional_request]
      · by_cases h200 : s = 200
        · subst h200
          have ht : b.truthy = true := by
            unfold IncidentsData.truthy
            rw [hb]
            rfl
          simp [poll_cycle, fetch_resource, make_conditional_request, ht]
        · simp [poll_cycle, fetch_resource, make_conditional_request, h304, h200]

/-- Witness for C7 at a concrete changed 200 response. -/
theorem C7_witness :
    ((poll_cycle initial_state
        (HttpEvent.resp 200 none (⟨some [], false⟩ : IncidentsData))
        (HttpEvent.exn "x")).2.2 = true ↔
      (fetch_resource initial_state.etag_incidents
        (HttpEvent.resp 200 none (⟨some [], false⟩ : IncidentsData))).1.isSome) :=
  C7_conditional_cycle.2 initial_state
    (HttpEvent.resp 200 none (⟨some [], false⟩ : IncidentsData))
    (HttpEvent.exn "x")
    (by
      intro s hdr b hb
      injection hb with h1 h2 h3
      rw [← h3]
      rfl)

/-- C9: interval handling in `main` never fails: parsed integers below
10 are clamped to the floor of 10, an unparseable argument falls back
to the default of 60, an in-range integer is used as given, and every
outcome is at least 10. -/
theorem C9_poll_interval_clamping :
    (∀ n : Int, n < 10 → resolve_poll_interval (some (some n)) = 10) ∧
    (∀ n : Int, 10 ≤ n → resolve_poll_interval (some (some n)) = n) ∧
    resolve_poll_interval (some none) = 60 ∧
    resolve_poll_interval none = 60 ∧
    (∀ a, 10 ≤ resolve_poll_interval a) := by
  refine ⟨?_, ?_, rfl, rfl, ?_⟩
  · intro n h
    simp [resolve_poll_interval, h]
  · intro n h
    simp [resolve_poll_interval, not_lt.mpr h]
  · intro a
    rcases a with _ | a
    · norm_num [resolve_poll_interval]
    · rcases a with _ | n
      · norm_num [resolve_poll_interval]
      · by_cases h : n < 10
        · simp [resolve_poll_interval, h]
        · simp only [resolve_poll_interval, if_neg h]
          omega

/-- Witness for C9 at concrete arguments. -/
theorem C9_witness :
    resolve_poll_interval (some (some 3)) = 10 ∧
    resolve_poll_interval (some (some 60)) = 60 ∧
    10 ≤ resolve_poll_interval (some none) :=
  ⟨C9_poll_interval_clamping.1 3 (by decide),
   C9_poll_interval_clamping.2.1 60 (by decide),
   C9_poll_interval_clamping.2.2.2.2 (some none)⟩

/-- A component reference carrying an id always resolves to a name or
falls back to that id, never to an absent value. -/
theorem resolve_component_name_isSome (cd : Option ComponentsData)
    (c : CompRef) (h : c.compId.isSome) :
    (resolve_component_name cd c).isSome := by
  cases cd with
  | none => exact h
  | some d =>
    show (if d.truthy then get_component_name c.compId d else c.compId).isSome
    cases hb : d.truthy
    · simpa using h
    · rw [if_pos rfl]
      unfold get_component_name
      rcases h1 : d.components with _ | comps
      · exact h
      · simp only [h1]
        rcases h2 : comps.find? (fun c2 => c2.id == c.compId) with _ | c0
        · simp only [h2]
          exact h
        · simp only [h2]
          rcases h3 : c0.name with _ | n
          · simp only [h3]
            exact h
          · simp only [h3]
            rfl

/-- Mapping name resolution over component references that all carry an
id yields a fully present name list. -/
theorem all_some_map_isSome (cd : Option ComponentsData) (l : List CompRef)
    (h : ∀ c ∈ l, c.compId.isSome) :
    ∃ ns, all_some (l.map (resolve_component_name cd)) = some ns ∧
      ns.length = l.length := by
  induction l with
  | nil => exact ⟨[], rfl, rfl⟩
  | cons c rest ih =>
    obtain ⟨ns, hns, hlen⟩ := ih (fun x hx => h x (List.mem_cons_of_mem c hx))
    have hc : (resolve_component_name cd c).isSome :=
      resolve_component_name_isSome cd c (h c (List.mem_cons_self c rest))
    obtain ⟨s, hs⟩ := Option.isSome_iff_exists.mp hc
    refine ⟨s :: ns, ?_, by simp [hlen]⟩
    rw [List.map_cons, hs]
    show (all_some (rest.map (resolve_component_name cd))).map
      (fun l2 => s :: l2) = some (s :: ns)
    rw [hns]
    rfl

/-- C8 (amended): for every incident whose component references carry
ids, the formatter resolves a display timestamp falling back to the
current time when the incident carries no timestamp, a comma-joined
list of affected component display names falling back to the label
"OpenAI Services" when the incident lists none, and the body of the
update at index 0 falling back to "No status message available" when
the incident has no updates. -/
theorem C8_formatter_amended (now : String) (fmtTs : String → String)
    (inc : Incident) (cd : Option ComponentsData)
    (hcomp : ∀ c ∈ inc.components, c.compId.isSome) :
    (print_incident_update now fmtTs inc cd).isSome ∧
    (print_incident_update now fmtTs inc cd).map DisplayRecord.timestamp =
      some (if inc.updated_at.getD "" = "" then now
            else fmtTs (inc.updated_at.getD "")) ∧
    (print_incident_update now fmtTs inc cd).map DisplayRecord.product_str =
      (all_some (inc.components.map (resolve_component_name cd))).map
        (fun names => if names = [] then "OpenAI Services"
                      else String.intercalate ", " names) ∧
    (inc.components = [] →
      (print_incident_update now fmtTs inc cd).map DisplayRecord.product_str =
        some "OpenAI Services") ∧
    (print_incident_update now fmtTs inc cd).map DisplayRecord.status_message =
      some (match inc.incident_updates with
            | [] => "No status message available"
            | u :: _ => u.body.getD "No status message available") := by
  obtain ⟨ns, hns, hlen⟩ := all_some_map_isSome cd inc.components hcomp
  have hpr : print_incident_update now fmtTs inc cd =
      some ⟨if inc.updated_at.getD "" = "" then now
              else fmtTs (inc.updated_at.getD ""),
            if ns = [] then "OpenAI Services"
              else String.intercalate ", " ns,
            match inc.incident_updates with
            | [] => "No status message available"
            | u :: _ => u.body.getD "No status message available"⟩ := by
    unfold print_incident_update
    dsimp only
    rw [hns]
  refine ⟨by rw [hpr]; rfl, by rw [hpr]; rfl, by rw [hpr, hns]; rfl, ?_,
    by rw [hpr]; rfl⟩
  intro hempty
  have hns0 : ns = [] := by
    apply List.length_eq_zero.mp
    rw [hlen, hempty]
    rfl
  rw [hpr]
  simp [hns0]

/-- Counterexample to C8 as stated: at an incident with no components
and no updates the formatter's fallback label is "OpenAI Services",
not "general services", and its fallback message is capitalized
"No status message available", not "no status message available"
(lines 157 and 169 of the source). -/
theorem C8_counterexample :
    print_incident_update "NOW" (fun s => s)
      ⟨some "abc", some "investigating", none, [], []⟩ none =
      some ⟨"NOW", "OpenAI Services", "No status message available"⟩ ∧
    ("OpenAI Services" : String) ≠ "general services" ∧
    ("No status message available" : String) ≠
      "no status message available" := by
  refine ⟨rfl, by decide, by decide⟩

/-- Witness for C8 (amended) at a concrete incident with one component. -/
theorem C8_witness :
    (print_incident_update "NOW" (fun s => s)
       ⟨some "abc", some "investigating", some "t1", [CompRef.bare "c1"],
        [⟨some "all good"⟩]⟩
       (some ⟨some [⟨some "c1", some "API"⟩], false⟩)).isSome :=
  (C8_formatter_amended "NOW" (fun s => s)
     ⟨some "abc", some "investigating", some "t1", [CompRef.bare "c1"],
      [⟨some "all good"⟩]⟩
     (some ⟨some [⟨some "c1", some "API"⟩], false⟩)
     (by decide)).1
